import Mathlib

/-!
Shallow embedding of `src/lambda_function.py`, an AWS Lambda image-resize
handler with two entry paths (S3 storage events and API Gateway invocations)
that share a resize-and-persist routine (`process_image`) and a metadata
writer (`save_metadata`).

Modelling conventions:
* External libraries and services are abstracted into an `Env` record:
  `imageOpen` models `PIL.Image.open` (decoding bytes into an image with a
  width, height and detected format), `imageSave` models re-encoding a
  (resized) image in a given format, `getObject` models `s3.get_object`
  (the pre-existing contents of the object store), `now` models
  `int(datetime.utcnow().timestamp())` and `nowIso` models
  `datetime.utcnow().isoformat()`.
* Writes to the object store (`s3.put_object`) and to the key-value table
  (`table.put_item`) are recorded as an ordered `List Effect`; the DynamoDB
  table state resulting from a trace is computed by `applyEffects`, where
  `put_item` is an unconditional upsert keyed on `image_id`.
* Bytes are `List Nat`; Python float expressions (`RESIZE_WIDTH / float(w)`
  and `int(float(h) * ratio)`) are modelled in exact real arithmetic, i.e.
  `int(h * (800 / w))` becomes the natural-number floor `h * 800 / w`.
* Python exceptions are `Except String`; a handler path that has already
  performed some writes before failing returns those effects alongside the
  error, matching the fact that the Python writes have already happened
  when the exception propagates.
* Event payloads are given a typed shape (`LambdaEvent`) covering the keys
  the handler reads: `Records` (each record optionally carrying an `s3`
  section with an object key), `body`, `isBase64Encoded` and
  `queryStringParameters`.
-/

/-- An in-memory image as produced by `PIL.Image.open`: dimensions, the
detected format (`img.format`, `none` when undetected) and an abstract pixel
payload. -/
structure Img where
  width : Nat
  height : Nat
  format : Option String
  data : List Nat
deriving DecidableEq

/-- `img.resize((w, h), Image.LANCZOS)`: PIL returns an image of exactly the
requested size; the Lanczos resampling of the pixel payload is abstracted
(the payload is carried through unchanged, and only ever re-encoded by the
environment-supplied `imageSave`). -/
def Img.resize (i : Img) (w h : Nat) : Img :=
  { i with width := w, height := h }

/-- A row of the DynamoDB `image_metadata` table, as built by
`save_metadata` (lines 43-49 of the source). -/
structure Item where
  image_id : String
  original_key : String
  resized_key : String
  size_bytes : Nat
  timestamp : String
deriving DecidableEq

/-- One externally visible write: `s3.put_object` (key, body bytes, content
type) or `table.put_item`. -/
inductive Effect where
  | s3Put (key : String) (body : List Nat) (contentType : String)
  | ddbPut (item : Item)
deriving DecidableEq

/-- Abstraction of the external world read by the handler: the image codec
(PIL), the pre-existing object store contents, and the clock. -/
structure Env where
  imageOpen : List Nat → Except String Img
  imageSave : Img → String → List Nat
  getObject : String → Except String (List Nat × String)
  now : Nat
  nowIso : String

/-- The environment-style configuration of lines 12-15: bucket name, the
upload key namespace `UPLOAD_PREFIX` (`uploadPref`) and the resized key
namespace `RESIZED_PREFIX` (`resizedPref`). -/
structure Config where
  bucketName : String
  uploadPref : String
  resizedPref : String
deriving DecidableEq

/-- `RESIZE_WIDTH = 800` (line 16). -/
def RESIZE_WIDTH : Nat := 800

/-- A structured HTTP-style response: `statusCode` and `body`. -/
structure Response where
  statusCode : Nat
  body : String
deriving DecidableEq

/-- The `record['s3']` section of one storage-event record; `objectKey`
models the nested `['object']['key']` chain (`none` when a key along the
chain is missing, which makes the Python subscript raise `KeyError`). -/
structure S3Section where
  objectKey : Option String
deriving DecidableEq

/-- One element of the `Records` list of a storage-event payload. -/
structure EventRecord where
  s3 : Option S3Section
deriving DecidableEq

/-- The invocation payload, typed over the keys the handler reads. -/
structure LambdaEvent where
  records : Option (List EventRecord)
  body : Option String
  isBase64Encoded : Option Bool
  queryStringParameters : Option (List (String × String))
deriving DecidableEq

/-- JSON string escaping as performed by `json.dumps` on the characters that
can occur in the model's messages. -/
def jsonEscape (s : String) : String :=
  String.mk (s.data.foldr
    (fun c acc =>
      if c = '"' then '\\' :: '"' :: acc
      else if c = '\\' then '\\' :: '\\' :: acc
      else if c = '\n' then '\\' :: 'n' :: acc
      else c :: acc) [])

/-- `json.dumps({'error': str(e)})` (lines 120 and 140). -/
def jsonError (m : String) : String :=
  "\x7b\"error\": \"" ++ jsonEscape m ++ "\"\x7d"

/-- `json.dumps({'message': ..., 'resized_url': f's3://{BUCKET_NAME}/{resized_key}'})`
(line 112). -/
def apiSuccessBody (cfg : Config) (resized_key : String) : String :=
  "\x7b\"message\": \"Image uploaded and processed\", \"resized_url\": \"s3://"
    ++ cfg.bucketName ++ "/" ++ resized_key ++ "\"\x7d"

/-- The value of a base64 alphabet character (`A-Za-z0-9+/`), `none` for any
other character. -/
def b64Val (c : Char) : Option Nat :=
  if 'A' ≤ c ∧ c ≤ 'Z' then some (c.toNat - 65)
  else if 'a' ≤ c ∧ c ≤ 'z' then some (c.toNat - 97 + 26)
  else if '0' ≤ c ∧ c ≤ '9' then some (c.toNat - 48 + 52)
  else if c = '+' then some 62
  else if c = '/' then some 63
  else none

/-- Decode a run of 4-character base64 groups (the alphabet-filtered input),
with `=` padding allowed only at the very end, as `binascii.a2b_base64`
does; a leftover group of fewer than 4 characters is a padding error. -/
def b64decodeGroups : List Char → Except String (List Nat)
  | [] => .ok []
  | a :: b :: c :: d :: rest =>
    match b64Val a, b64Val b with
    | some va, some vb =>
      if c = '=' then
        if d = '=' ∧ rest = [] then .ok [va * 4 + vb / 16]
        else .error "Invalid base64-encoded string"
      else
        match b64Val c with
        | some vc =>
          if d = '=' then
            if rest = [] then .ok [va * 4 + vb / 16, vb % 16 * 16 + vc / 4]
            else .error "Invalid base64-encoded string"
          else
            match b64Val d with
            | some vd =>
              (b64decodeGroups rest).map
                (fun bs => (va * 4 + vb / 16) :: (vb % 16 * 16 + vc / 4)
                  :: (vc % 4 * 64 + vd) :: bs)
            | none => .error "Invalid base64-encoded string"
        | none => .error "Invalid base64-encoded string"
    | _, _ => .error "Invalid base64-encoded string"
  | _ => .error "Incorrect padding"

/-- `base64.b64decode(body)` with the default `validate=False`: characters
outside the alphabet and `=` are discarded before decoding. -/
def b64decode (s : String) : Except String (List Nat) :=
  b64decodeGroups (s.data.filter (fun c => (b64Val c).isSome || c = '='))

/-- `body.encode('latin1')` (line 88): one byte per character, failing on
code points above 255. -/
def latin1Encode (s : String) : Except String (List Nat) :=
  if s.data.all (fun c => c.toNat < 256) then .ok (s.data.map Char.toNat)
  else .error "latin-1 codec cannot encode character"

/-- `key.startswith(UPLOAD_PREFIX)` (line 55): the first characters of the
key are exactly the given leading string. -/
def startsWithKey (key pre : String) : Bool :=
  key.data.take pre.data.length == pre.data

/-- `key.split('/')[-1]` (line 59): the component after the last slash (the
whole string when there is no slash, empty for a trailing slash). -/
def lastComponent (k : String) : String :=
  String.mk (k.data.foldl (fun acc c => if c = '/' then [] else acc ++ [c]) [])

/-- `format_to_save = img.format if img.format else 'JPEG'` (line 32);
`None` and the empty string are both falsy. -/
def formatToSave (o : Option String) : String :=
  match o with
  | some f => if f.isEmpty then "JPEG" else f
  | none => "JPEG"

/-- Lines 26-27: `ratio = RESIZE_WIDTH / float(img.width)` and
`height = int(float(img.height) * float(ratio))` in exact real arithmetic,
i.e. the target size `(RESIZE_WIDTH, floor(h * RESIZE_WIDTH / w))`; `int()`
truncates, which is the floor for these non-negative values. -/
def resize_dims (w h : Nat) : Nat × Nat :=
  (RESIZE_WIDTH, h * RESIZE_WIDTH / w)

/-- `process_image(file_name, image_bytes, content_type)` (lines 20-39):
decode, compute the target size, resize, re-encode in the detected format,
put the encoded bytes under `RESIZED_PREFIX + file_name`, and return the
resized key and the encoded byte length.  A zero decoded width makes the
Python `RESIZE_WIDTH / float(img.width)` raise `ZeroDivisionError`. -/
def process_image (env : Env) (cfg : Config) (file_name : String)
    (image_bytes : List Nat) (content_type : String) :
    Except String (List Effect × String × Nat) :=
  match env.imageOpen image_bytes with
  | .error e => .error e
  | .ok img =>
    if img.width = 0 then .error "float division by zero"
    else
      let dims := resize_dims img.width img.height
      let resized_img := Img.resize img dims.1 dims.2
      let outBytes := env.imageSave resized_img (formatToSave img.format)
      let resized_key := cfg.resizedPref ++ file_name
      .ok ([Effect.s3Put resized_key outBytes content_type],
        resized_key, outBytes.length)

/-- `save_metadata(image_id, original_key, resized_key, size_bytes)`
(lines 41-50): build the item with the current UTC timestamp and issue one
unconditional `put_item`. -/
def save_metadata (env : Env) (image_id original_key resized_key : String)
    (size_bytes : Nat) : Effect :=
  Effect.ddbPut
    { image_id := image_id
      original_key := original_key
      resized_key := resized_key
      size_bytes := size_bytes
      timestamp := env.nowIso }

/-- The body of one iteration of the `handle_s3_event` loop (lines 53-65):
skip keys outside the upload namespace, otherwise fetch the object, resize
and persist, then write metadata.  Returns the writes performed and either
success or the first exception. -/
def processRecord (env : Env) (cfg : Config) (r : EventRecord) :
    List Effect × Except String Unit :=
  match r.s3 with
  | none => ([], .error "KeyError: s3")
  | some sec =>
    match sec.objectKey with
    | none => ([], .error "KeyError: key")
    | some key =>
      if startsWithKey key cfg.uploadPref then
        match env.getObject key with
        | .error e => ([], .error e)
        | .ok (image_content, content_type) =>
          let file_name := lastComponent key
          match process_image env cfg file_name image_content content_type with
          | .error e => ([], .error e)
          | .ok (effs, resized_key, size_bytes) =>
            (effs ++ [save_metadata env file_name key resized_key size_bytes],
              .ok ())
      else ([], .ok ())

/-- `handle_s3_event(event)` (lines 52-65): process the records in order;
an exception in one record propagates and aborts the remaining records,
keeping the writes already performed. -/
def handle_s3_event (env : Env) (cfg : Config) :
    List EventRecord → List Effect × Except String Unit
  | [] => ([], .ok ())
  | r :: rest =>
    match processRecord env cfg r with
    | (effs, .error e) => (effs, .error e)
    | (effs, .ok _) =>
      let t := handle_s3_event env cfg rest
      (effs ++ t.1, t.2)

/-- Lines 71-91: obtain the image bytes from the API payload.  When
`isBase64Encoded` is set the body is base64-decoded; otherwise (the body is
a `str` in this typed model) a base64 decode is attempted and on failure
the raw string is re-encoded as latin-1. -/
def api_decode_bytes (evt : LambdaEvent) : Except String (List Nat) :=
  let body := evt.body.getD ""
  if evt.isBase64Encoded.getD false then b64decode body
  else
    match b64decode body with
    | .ok bs => .ok bs
    | .error _ => latin1Encode body

/-- Line 95: the target file name — the `filename` query parameter, or a
name synthesized from the current UTC Unix timestamp with a `.jpg`
extension. -/
def api_file_name (env : Env) (evt : LambdaEvent) : String :=
  match (evt.queryStringParameters.getD []).find? (fun p => p.1 = "filename") with
  | some p => p.2
  | none => "image_" ++ toString env.now ++ ".jpg"

/-- Lines 93-113: upload the original bytes under the upload namespace with
content type `image/jpeg`, run `process_image`, write metadata, and build
the success response. -/
def api_with_bytes (env : Env) (cfg : Config) (evt : LambdaEvent)
    (image_bytes : List Nat) : List Effect × Except String Response :=
  let file_name := api_file_name env evt
  let key := cfg.uploadPref ++ file_name
  let upEff := Effect.s3Put key image_bytes "image/jpeg"
  match process_image env cfg file_name image_bytes "image/jpeg" with
  | .error e => ([upEff], .error e)
  | .ok (effs, resized_key, size_bytes) =>
    (upEff :: effs ++ [save_metadata env file_name key resized_key size_bytes],
      .ok { statusCode := 200, body := apiSuccessBody cfg resized_key })

/-- The `except` clause of `handle_api_event` (lines 114-121): convert an
exception into a 500 response with the message under `error`. -/
def api_catch : List Effect × Except String Response → List Effect × Response
  | (effs, .ok resp) => (effs, resp)
  | (effs, .error e) => (effs, { statusCode := 500, body := jsonError e })

/-- `handle_api_event(event)` (lines 67-121): decode the bytes, then upload,
resize and persist; every exception is caught internally. -/
def handle_api_event (env : Env) (cfg : Config) (evt : LambdaEvent) :
    List Effect × Response :=
  match api_decode_bytes evt with
  | .error e => ([], { statusCode := 500, body := jsonError e })
  | .ok image_bytes => api_catch (api_with_bytes env cfg evt image_bytes)

/-- Line 127: `'Records' in event and event['Records'] and 's3' in
event['Records'][0]`. -/
def isS3Event (evt : LambdaEvent) : Bool :=
  match evt.records with
  | some (r :: _) => r.s3.isSome
  | _ => false

/-- Lines 129-130 together with the enclosing `except` (lines 134-141): run
the storage-event path and acknowledge, converting an exception into the
500 error response. -/
def s3EventResponse (env : Env) (cfg : Config) (evt : LambdaEvent) :
    List Effect × Response :=
  match handle_s3_event env cfg (evt.records.getD []) with
  | (effs, .ok _) => (effs, { statusCode := 200, body := "Processed S3 event" })
  | (effs, .error e) => (effs, { statusCode := 500, body := jsonError e })

/-- `lambda_handler(event, context)` (lines 123-141): dispatch on the
payload shape; all exceptions are caught at this boundary (the API path
already catches its own). -/
def lambda_handler (env : Env) (cfg : Config) (evt : LambdaEvent) :
    List Effect × Response :=
  if isS3Event evt then s3EventResponse env cfg evt
  else handle_api_event env cfg evt

/-- The message of the first exception raised inside the invocation, `none`
when the invocation succeeds; derived from the handler structure (the S3
path fails where `handle_s3_event` fails, the API path where decoding or
`api_with_bytes` fails). -/
def invocationError (env : Env) (cfg : Config) (evt : LambdaEvent) :
    Option String :=
  if isS3Event evt then
    match (handle_s3_event env cfg (evt.records.getD [])).2 with
    | .error e => some e
    | .ok _ => none
  else
    match api_decode_bytes evt with
    | .error e => some e
    | .ok image_bytes =>
      match (api_with_bytes env cfg evt image_bytes).2 with
      | .error e => some e
      | .ok _ => none

/-- `table.put_item(Item=item)`: DynamoDB `put_item` is an unconditional
upsert on the partition key `image_id` — it replaces the row with that key
if present, and inserts it otherwise. -/
def putItem (t : List Item) (it : Item) : List Item :=
  if t.any (fun x => x.image_id = it.image_id) then
    t.map (fun x => if x.image_id = it.image_id then it else x)
  else t ++ [it]

/-- Apply one effect to the metadata table state (object-store puts do not
touch the table). -/
def applyEffect (t : List Item) : Effect → List Item
  | .ddbPut it => putItem t it
  | .s3Put _ _ _ => t

/-- Replay a trace of effects against a table state. -/
def applyEffects (t : List Item) (effs : List Effect) : List Item :=
  effs.foldl applyEffect t

/-- Read the table row with the given `image_id`. -/
def lookupItem (t : List Item) (id : String) : Option Item :=
  t.find? (fun x => x.image_id = id)

/-- Modelled from the spec's words: `round(original_height × W /
original_width)` — rounding the rational `num / den` to the nearest
integer, halves up. -/
def specRound (num den : Nat) : Nat :=
  (2 * num + den) / (2 * den)

/-! ### Concrete test fixtures -/

/-- The S3-event configuration used in concrete runs: bucket `bucket`,
upload namespace `uploads/`, resized namespace `resized/`. -/
def cfg0 : Config :=
  { bucketName := "bucket", uploadPref := "uploads/", resizedPref := "resized/" }

/-- A concrete decoded image: a 1600×1200 PNG whose abstract payload is the
byte list it was decoded from. -/
def imgW : Img := { width := 1600, height := 1200, format := some "PNG", data := [7] }

/-- A concrete working environment: every nonempty byte list decodes to a
1600×1200 PNG, encoding writes the dimensions as four bytes, and the object
store holds three PNG objects under `uploads/`. -/
def envW : Env :=
  { imageOpen := fun bs =>
      if bs = [] then .error "cannot identify image file"
      else .ok { width := 1600, height := 1200, format := some "PNG", data := bs }
    imageSave := fun i _ =>
      [i.width % 256, i.width / 256, i.height % 256, i.height / 256]
    getObject := fun k =>
      if k = "uploads/cat.png" then .ok ([7], "image/png")
      else if k = "uploads/a/x.png" then .ok ([8], "image/png")
      else if k = "uploads/b/x.png" then .ok ([9], "image/png")
      else .error "NoSuchKey"
    now := 1700000000
    nowIso := "2023-11-14T22:13:20" }

/-- An environment whose codec decodes everything to a 3×1 image and encodes
an image as the two-element list of its dimensions. -/
def envC1 : Env :=
  { imageOpen := fun _ => .ok { width := 3, height := 1, format := some "PNG", data := [] }
    imageSave := fun i _ => [i.width, i.height]
    getObject := fun _ => .error "NoSuchKey"
    now := 0
    nowIso := "t" }

/-! ### Helper lemmas about the batch loop and the table -/

/-- If the first batch of records succeeds, processing a concatenation runs
the first batch and then the second, concatenating their write traces. -/
theorem handle_s3_event_append_ok (env : Env) (cfg : Config)
    (l1 l2 : List EventRecord) (h : (handle_s3_event env cfg l1).2 = .ok ()) :
    handle_s3_event env cfg (l1 ++ l2) =
      ((handle_s3_event env cfg l1).1 ++ (handle_s3_event env cfg l2).1,
        (handle_s3_event env cfg l2).2) := by
  induction l1 with
  | nil => simp [handle_s3_event]
  | cons r l ih =>
    rcases hpr : processRecord env cfg r with ⟨effs, res⟩
    cases res with
    | error e =>
      exfalso
      simp [handle_s3_event, hpr] at h
    | ok u =>
      have h' : (handle_s3_event env cfg l).2 = .ok () := by
        simpa [handle_s3_event, hpr] using h
      simp [handle_s3_event, hpr, ih h', List.append_assoc]

/-- If the first batch of records fails, appending further records changes
nothing: the batch aborts at the first failing record. -/
theorem handle_s3_event_append_err (env : Env) (cfg : Config)
    (l1 l2 : List EventRecord) (e : String)
    (h : (handle_s3_event env cfg l1).2 = .error e) :
    handle_s3_event env cfg (l1 ++ l2) = handle_s3_event env cfg l1 := by
  induction l1 with
  | nil => simp [handle_s3_event] at h
  | cons r l ih =>
    rcases hpr : processRecord env cfg r with ⟨effs, res⟩
    cases res with
    | error e' =>
      simp [handle_s3_event, hpr]
    | ok u =>
      have h' : (handle_s3_event env cfg l).2 = .error e := by
        simpa [handle_s3_event, hpr] using h
      simp [handle_s3_event, hpr, ih h']

/-- `put_item` followed by a read of the same `image_id` returns the item
just written (last write wins). -/
theorem lookupItem_putItem (t : List Item) (it : Item) :
    lookupItem (putItem t it) it.image_id = some it := by
  induction t with
  | nil => simp [putItem, lookupItem, List.find?]
  | cons x xs ih =>
    by_cases hx : x.image_id = it.image_id
    · simp [putItem, lookupItem, List.find?, hx]
    · have hput : putItem (x :: xs) it = x :: putItem xs it := by
        by_cases hany : xs.any (fun y => y.image_id = it.image_id)
        · simp [putItem, hx, hany]
        · simp [putItem, hx, hany]
      rw [hput]
      simpa [lookupItem, List.find?, hx] using ih

/-! ### C1: resize dimensions -/

/-- Claim C1, amended: for every valid image input of width w > 0 and height
h, `process_image` resizes to the fixed target width 800 and to height
⌊h × 800 / w⌋ — the `int()` truncation of the scaled height, not its
rounding to the nearest integer — and uploads the re-encoded result under
the resized key, returning that key and the encoded byte length. -/
theorem c1_process_image_dims (env : Env) (cfg : Config) (file_name : String)
    (image_bytes : List Nat) (content_type : String) (img : Img)
    (hopen : env.imageOpen image_bytes = .ok img) (hw : 0 < img.width) :
    ∃ resized : Img,
      resized.width = RESIZE_WIDTH ∧
      resized.height = img.height * RESIZE_WIDTH / img.width ∧
      process_image env cfg file_name image_bytes content_type =
        .ok ([Effect.s3Put (cfg.resizedPref ++ file_name)
            (env.imageSave resized (formatToSave img.format)) content_type],
          cfg.resizedPref ++ file_name,
          (env.imageSave resized (formatToSave img.format)).length) := by
  refine ⟨Img.resize img RESIZE_WIDTH (img.height * RESIZE_WIDTH / img.width),
    rfl, rfl, ?_⟩
  simp [process_image, hopen, Nat.pos_iff_ne_zero.mp hw, resize_dims]

/-- Witness for C1: a 1600×1200 image is resized to 800×600 and stored under
`resized/cat.png`. -/
theorem c1_witness :
    ∃ resized : Img,
      resized.width = RESIZE_WIDTH ∧
      resized.height = imgW.height * RESIZE_WIDTH / imgW.width ∧
      process_image envW cfg0 "cat.png" [7] "image/png" =
        .ok ([Effect.s3Put (cfg0.resizedPref ++ "cat.png")
            (envW.imageSave resized (formatToSave imgW.format)) "image/png"],
          cfg0.resizedPref ++ "cat.png",
          (envW.imageSave resized (formatToSave imgW.format)).length) :=
  c1_process_image_dims envW cfg0 "cat.png" [7] "image/png" imgW rfl (by decide)

/-- Counterexample to C1 as stated: for a 3×1 source image the code stores a
resized image of height ⌊1 × 800 / 3⌋ = 266, whereas round(1 × 800 / 3) =
267, so the produced height is not round(h × W / w). -/
theorem c1_counterexample :
    process_image envC1 cfg0 "x.png" [0] "image/png" =
        .ok ([Effect.s3Put "resized/x.png" [800, 266] "image/png"],
          "resized/x.png", 2) ∧
    specRound (1 * RESIZE_WIDTH) 3 = 267 ∧
    resize_dims 3 1 ≠ (RESIZE_WIDTH, specRound (1 * RESIZE_WIDTH) 3) := by
  exact ⟨rfl, rfl, by decide⟩

/-! ### C2: entry dispatch -/

/-- A storage-event payload: one record for the object `uploads/cat.png`. -/
def evtS3 : LambdaEvent :=
  { records := some [{ s3 := some { objectKey := some "uploads/cat.png" } }]
    body := none
    isBase64Encoded := none
    queryStringParameters := none }

/-- An API payload: base64 body `AQID` and a `filename` query parameter. -/
def evtApi : LambdaEvent :=
  { records := none
    body := some "AQID"
    isBase64Encoded := some true
    queryStringParameters := some [("filename", "cat.png")] }

/-- Claim C2: `lambda_handler` takes the storage-event path exactly when the
payload has a non-empty list under the records key whose first element
carries an object-store (`s3`) sub-section; every other payload goes to the
API path. -/
theorem c2_dispatch (env : Env) (cfg : Config) (evt : LambdaEvent) :
    ((∃ r rs, evt.records = some (r :: rs) ∧ r.s3.isSome = true) →
      lambda_handler env cfg evt = s3EventResponse env cfg evt) ∧
    ((¬ ∃ r rs, evt.records = some (r :: rs) ∧ r.s3.isSome = true) →
      lambda_handler env cfg evt = handle_api_event env cfg evt) := by
  have hiff : isS3Event evt = true ↔
      ∃ r rs, evt.records = some (r :: rs) ∧ r.s3.isSome = true := by
    unfold isS3Event
    cases hrec : evt.records with
    | none => simp
    | some l =>
      cases l with
      | nil => simp
      | cons r rs => simp
  constructor
  · intro h
    simp [lambda_handler, hiff.mpr h]
  · intro h
    have hf : isS3Event evt = false := by
      cases hb : isS3Event evt
      · rfl
      · exact absurd (hiff.mp hb) h
    simp [lambda_handler, hf]

/-- Witness for C2: the storage-event payload is routed to the storage path
and the API payload to the API path. -/
theorem c2_witness :
    lambda_handler envW cfg0 evtS3 = s3EventResponse envW cfg0 evtS3 ∧
    lambda_handler envW cfg0 evtApi = handle_api_event envW cfg0 evtApi :=
  ⟨(c2_dispatch envW cfg0 evtS3).1 ⟨_, _, rfl, rfl⟩,
    (c2_dispatch envW cfg0 evtApi).2 (by simp [evtApi])⟩

/-! ### C3: records outside the upload namespace are skipped -/

/-- A storage-event record whose key lies outside the upload namespace. -/
def recSkip : EventRecord := { s3 := some { objectKey := some "archive/old.png" } }

/-- A single-record storage-event payload for `archive/old.png`. -/
def evtSkip : LambdaEvent :=
  { records := some [recSkip]
    body := none
    isBase64Encoded := none
    queryStringParameters := none }

/-- Claim C3: a storage-event record whose object key does not start with
the upload namespace contributes no store write and no metadata write —
removing it from the batch changes nothing — and a single-record invocation
with such a record performs no writes and returns the fixed status-200
acknowledgement. -/
theorem c3_skip_no_writes (env : Env) (cfg : Config)
    (pre post : List EventRecord) (r : EventRecord) (sec : S3Section)
    (key : String) (h1 : r.s3 = some sec) (h2 : sec.objectKey = some key)
    (h3 : startsWithKey key cfg.uploadPref = false) :
    handle_s3_event env cfg (pre ++ r :: post) =
      handle_s3_event env cfg (pre ++ post) ∧
    ∀ evt : LambdaEvent, evt.records = some [r] →
      lambda_handler env cfg evt =
        ([], { statusCode := 200, body := "Processed S3 event" }) := by
  have hskip : processRecord env cfg r = ([], .ok ()) := by
    simp [processRecord, h1, h2, h3]
  have hcons : ∀ l, handle_s3_event env cfg (r :: l) = handle_s3_event env cfg l := by
    intro l
    simp [handle_s3_event, hskip]
  constructor
  · cases hpre : (handle_s3_event env cfg pre).2 with
    | ok u =>
      cases u
      rw [handle_s3_event_append_ok env cfg pre (r :: post) hpre,
        handle_s3_event_append_ok env cfg pre post hpre, hcons post]
    | error e =>
      rw [handle_s3_event_append_err env cfg pre _ e hpre,
        handle_s3_event_append_err env cfg pre _ e hpre]
  · intro evt hevt
    have hS3 : isS3Event evt = true := by simp [isS3Event, hevt, h1]
    have hrun : handle_s3_event env cfg [r] = ([], .ok ()) := by
      rw [hcons]
      rfl
    simp [lambda_handler, hS3, s3EventResponse, hevt, hrun]

/-- Witness for C3: the `archive/old.png` record is skipped in a batch and a
single-record invocation with it returns 200 with no writes. -/
theorem c3_witness :
    handle_s3_event envW cfg0 ([] ++ recSkip :: []) =
      handle_s3_event envW cfg0 ([] ++ []) ∧
    lambda_handler envW cfg0 evtSkip =
      ([], { statusCode := 200, body := "Processed S3 event" }) := by
  have h := c3_skip_no_writes envW cfg0 [] [] recSkip
    { objectKey := some "archive/old.png" } "archive/old.png" rfl rfl (by decide)
  exact ⟨h.1, h.2 evtSkip rfl⟩

/-! ### C4: the invocation boundary never raises -/

/-- The API path's success response always has status 200. -/
theorem api_with_bytes_ok_status (env : Env) (cfg : Config)
    (evt : LambdaEvent) (bs : List Nat) (resp : Response)
    (h : (api_with_bytes env cfg evt bs).2 = .ok resp) :
    resp.statusCode = 200 := by
  unfold api_with_bytes at h
  dsimp only at h
  cases hpi : process_image env cfg (api_file_name env evt) bs "image/jpeg" with
  | error e =>
    rw [hpi] at h
    simp at h
  | ok t =>
    rcases t with ⟨effs, rk, sz⟩
    rw [hpi] at h
    simp at h
    rw [← h]

/-- Claim C4: `lambda_handler` is a total function of the payload — no
exception escapes — and when the invocation raises internally with message
m, the response is exactly status 500 with body `{"error": "<m>"}`; when
nothing raises, the status is 200. -/
theorem c4_no_raise (env : Env) (cfg : Config) (evt : LambdaEvent) :
    (invocationError env cfg evt = none →
      (lambda_handler env cfg evt).2.statusCode = 200) ∧
    (∀ m, invocationError env cfg evt = some m →
      (lambda_handler env cfg evt).2 =
        { statusCode := 500, body := jsonError m }) := by
  by_cases hS3 : isS3Event evt = true
  · rcases hrun : handle_s3_event env cfg (evt.records.getD []) with ⟨effs, res⟩
    cases res with
    | ok u =>
      refine ⟨fun _ => ?_, fun m hm => ?_⟩
      · simp [lambda_handler, hS3, s3EventResponse, hrun]
      · exfalso
        simp [invocationError, hS3, hrun] at hm
    | error e =>
      refine ⟨fun hm => ?_, fun m hm => ?_⟩
      · exfalso
        simp [invocationError, hS3, hrun] at hm
      · have he : e = m := by simpa [invocationError, hS3, hrun] using hm
        subst he
        simp [lambda_handler, hS3, s3EventResponse, hrun]
  · have hS3' : isS3Event evt = false := by
      cases h : isS3Event evt
      · rfl
      · exact absurd h hS3
    cases hdec : api_decode_bytes evt with
    | error e =>
      refine ⟨fun hm => ?_, fun m hm => ?_⟩
      · exfalso
        simp [invocationError, hS3', hdec] at hm
      · have he : e = m := by simpa [invocationError, hS3', hdec] using hm
        subst he
        simp [lambda_handler, hS3', handle_api_event, hdec]
    | ok bs =>
      rcases hab : api_with_bytes env cfg evt bs with ⟨effs, res⟩
      cases res with
      | ok resp =>
        refine ⟨fun _ => ?_, fun m hm => ?_⟩
        · have h200 : resp.statusCode = 200 := by
            apply api_with_bytes_ok_status env cfg evt bs resp
            rw [hab]
          simp [lambda_handler, hS3', handle_api_event, hdec, hab, api_catch, h200]
        · exfalso
          simp [invocationError, hS3', hdec, hab] at hm
      | error e =>
        refine ⟨fun hm => ?_, fun m hm => ?_⟩
        · exfalso
          simp [invocationError, hS3', hdec, hab] at hm
        · have he : e = m := by simpa [invocationError, hS3', hdec, hab] using hm
          subst he
          simp [lambda_handler, hS3', handle_api_event, hdec, hab, api_catch]

/-- An API payload whose body decodes to empty bytes, which the codec
rejects. -/
def evtBadImage : LambdaEvent :=
  { records := none
    body := some "####"
    isBase64Encoded := none
    queryStringParameters := none }

/-- Witness for C4: a failing API invocation yields status 500 with the
codec's message under the error field. -/
theorem c4_witness :
    invocationError envW cfg0 evtBadImage = some "cannot identify image file" ∧
    (lambda_handler envW cfg0 evtBadImage).2 =
      { statusCode := 500, body := jsonError "cannot identify image file" } :=
  ⟨rfl, (c4_no_raise envW cfg0 evtBadImage).2 "cannot identify image file" rfl⟩

/-! ### C5: a failing record aborts the batch -/

/-- Claim C5: in a storage-event batch, once a record raises, no subsequent
record is processed — the result of the whole batch equals the result of
the batch truncated at the failing record, and the batch outcome is that
record's error. -/
theorem c5_first_failure_aborts (env : Env) (cfg : Config)
    (pre post : List EventRecord) (r : EventRecord) (e : String)
    (hpre : (handle_s3_event env cfg pre).2 = .ok ())
    (hr : (processRecord env cfg r).2 = .error e) :
    handle_s3_event env cfg (pre ++ r :: post) =
      handle_s3_event env cfg (pre ++ [r]) ∧
    (handle_s3_event env cfg (pre ++ r :: post)).2 = .error e := by
  have hcons : ∀ l, handle_s3_event env cfg (r :: l) =
      ((processRecord env cfg r).1, .error e) := by
    intro l
    rcases hpr : processRecord env cfg r with ⟨effs, res⟩
    rw [hpr] at hr
    simp only at hr
    cases res with
    | error e' =>
      cases hr
      simp [handle_s3_event, hpr]
    | ok u => exact absurd hr (by simp)
  have h1 : handle_s3_event env cfg (pre ++ r :: post) =
      ((handle_s3_event env cfg pre).1 ++ (processRecord env cfg r).1,
        .error e) := by
    rw [handle_s3_event_append_ok env cfg pre (r :: post) hpre, hcons post]
  have h2 : handle_s3_event env cfg (pre ++ [r]) =
      ((handle_s3_event env cfg pre).1 ++ (processRecord env cfg r).1,
        .error e) := by
    rw [handle_s3_event_append_ok env cfg pre [r] hpre, hcons []]
  exact ⟨h1.trans h2.symm, by rw [h1]⟩

/-- A storage-event record for an object missing from the store. -/
def recGhost : EventRecord := { s3 := some { objectKey := some "uploads/ghost.png" } }

/-- Witness for C5: a batch whose first record's object is missing aborts
before the following record. -/
theorem c5_witness :
    handle_s3_event envW cfg0 ([] ++ recGhost :: [recSkip]) =
      handle_s3_event envW cfg0 ([] ++ [recGhost]) ∧
    (handle_s3_event envW cfg0 ([] ++ recGhost :: [recSkip])).2 =
      .error "NoSuchKey" :=
  c5_first_failure_aborts envW cfg0 [] [recSkip] recGhost "NoSuchKey" rfl rfl

/-! ### C6: base64-decoded bytes flow unchanged -/

/-- Claim C6: for an API invocation with `isBase64Encoded` set and a valid
base64 body, the bytes obtained are exactly the base64 decoding of the body,
the rest of the API path runs on exactly those bytes (so `process_image`
receives them), and the original object uploaded under the upload namespace
has exactly those bytes as its body. -/
theorem c6_base64_bytes (env : Env) (cfg : Config) (evt : LambdaEvent)
    (bs : List Nat) (hb64 : evt.isBase64Encoded = some true)
    (hdec : b64decode (evt.body.getD "") = .ok bs) :
    api_decode_bytes evt = .ok bs ∧
    handle_api_event env cfg evt = api_catch (api_with_bytes env cfg evt bs) ∧
    ∃ rest, (api_with_bytes env cfg evt bs).1 =
      Effect.s3Put (cfg.uploadPref ++ api_file_name env evt) bs "image/jpeg"
        :: rest := by
  have h1 : api_decode_bytes evt = .ok bs := by
    simp [api_decode_bytes, hb64, hdec]
  refine ⟨h1, by simp [handle_api_event, h1], ?_⟩
  unfold api_with_bytes
  dsimp only
  cases hpi : process_image env cfg (api_file_name env evt) bs "image/jpeg" with
  | error e =>
    simp only [hpi]
    exact ⟨[], rfl⟩
  | ok t =>
    rcases t with ⟨effs, rk, sz⟩
    simp only [hpi]
    exact ⟨_, rfl⟩

/-- Witness for C6: the body `AQID` decodes to the bytes 1, 2, 3, which are
uploaded unchanged. -/
theorem c6_witness :
    api_decode_bytes evtApi = .ok [1, 2, 3] ∧
    handle_api_event envW cfg0 evtApi =
      api_catch (api_with_bytes envW cfg0 evtApi [1, 2, 3]) ∧
    ∃ rest, (api_with_bytes envW cfg0 evtApi [1, 2, 3]).1 =
      Effect.s3Put (cfg0.uploadPref ++ api_file_name envW evtApi) [1, 2, 3]
        "image/jpeg" :: rest :=
  c6_base64_bytes envW cfg0 evtApi [1, 2, 3] rfl rfl

/-! ### Success-run helpers for the API path -/

/-- The resized image built on line 28: the decoded image at the target
dimensions of `resize_dims`. -/
def resizedImg (img : Img) : Img :=
  Img.resize img (resize_dims img.width img.height).1
    (resize_dims img.width img.height).2

/-- The re-encoded bytes of the resized image (lines 30-34): the resized
image saved in the detected (or default) format. -/
def resizedBytes (env : Env) (img : Img) : List Nat :=
  env.imageSave (resizedImg img) (formatToSave img.format)

/-- The metadata row written by a successful API-path invocation for file
name `fname` whose bytes decoded to `img`. -/
def apiItem (env : Env) (cfg : Config) (fname : String) (img : Img) : Item :=
  { image_id := fname
    original_key := cfg.uploadPref ++ fname
    resized_key := cfg.resizedPref ++ fname
    size_bytes := (resizedBytes env img).length
    timestamp := env.nowIso }

/-- On a decodable image of positive width, `process_image` puts the
re-encoded resized bytes under the resized key and returns that key and the
encoded length. -/
theorem process_image_ok (env : Env) (cfg : Config) (fname : String)
    (bs : List Nat) (ct : String) (img : Img)
    (himg : env.imageOpen bs = .ok img) (hw : 0 < img.width) :
    process_image env cfg fname bs ct =
      .ok ([Effect.s3Put (cfg.resizedPref ++ fname) (resizedBytes env img) ct],
        cfg.resizedPref ++ fname, (resizedBytes env img).length) := by
  simp [process_image, himg, Nat.pos_iff_ne_zero.mp hw, resizedBytes, resizedImg]

/-- A successful API-path invocation uploads the original, uploads the
resized bytes, and writes exactly one metadata row, then answers 200. -/
theorem api_success_run (env : Env) (cfg : Config) (evt : LambdaEvent)
    (bs : List Nat) (img : Img) (hdec : api_decode_bytes evt = .ok bs)
    (himg : env.imageOpen bs = .ok img) (hw : 0 < img.width) :
    handle_api_event env cfg evt =
      ([Effect.s3Put (cfg.uploadPref ++ api_file_name env evt) bs "image/jpeg",
        Effect.s3Put (cfg.resizedPref ++ api_file_name env evt)
          (resizedBytes env img) "image/jpeg",
        Effect.ddbPut (apiItem env cfg (api_file_name env evt) img)],
        { statusCode := 200,
          body := apiSuccessBody cfg (cfg.resizedPref ++ api_file_name env evt) }) := by
  have hpi := process_image_ok env cfg (api_file_name env evt) bs "image/jpeg"
    img himg hw
  simp [handle_api_event, hdec, api_with_bytes, hpi, api_catch, save_metadata,
    apiItem]

/-! ### C7: synthesized file name -/

/-- Claim C7: with no `filename` query parameter, the file name is
synthesized as `image_<UTC Unix timestamp>.jpg`, and on a successful run
both the uploaded original key and the resized key (in the store and in the
metadata row) are built from that same synthesized name. -/
theorem c7_synthesized_name (env : Env) (cfg : Config) (evt : LambdaEvent)
    (bs : List Nat) (img : Img)
    (hq : (evt.queryStringParameters.getD []).find?
      (fun p => p.1 = "filename") = none)
    (hdec : api_decode_bytes evt = .ok bs)
    (himg : env.imageOpen bs = .ok img) (hw : 0 < img.width) :
    api_file_name env evt = "image_" ++ toString env.now ++ ".jpg" ∧
    handle_api_event env cfg evt =
      ([Effect.s3Put (cfg.uploadPref ++ ("image_" ++ toString env.now ++ ".jpg"))
          bs "image/jpeg",
        Effect.s3Put (cfg.resizedPref ++ ("image_" ++ toString env.now ++ ".jpg"))
          (resizedBytes env img) "image/jpeg",
        Effect.ddbPut (apiItem env cfg ("image_" ++ toString env.now ++ ".jpg") img)],
        { statusCode := 200,
          body := apiSuccessBody cfg
            (cfg.resizedPref ++ ("image_" ++ toString env.now ++ ".jpg")) }) := by
  have hname : api_file_name env evt = "image_" ++ toString env.now ++ ".jpg" := by
    simp [api_file_name, hq]
  refine ⟨hname, ?_⟩
  rw [← hname]
  exact api_success_run env cfg evt bs img hdec himg hw

/-- An API payload with a base64 body and no query parameters. -/
def evtNoName : LambdaEvent :=
  { records := none
    body := some "AQID"
    isBase64Encoded := some true
    queryStringParameters := none }

/-- The image the working environment decodes the bytes 1, 2, 3 to. -/
def imgAQID : Img := { width := 1600, height := 1200, format := some "PNG", data := [1, 2, 3] }

/-- Witness for C7: with no `filename` parameter and timestamp 1700000000,
the keys `uploads/image_1700000000.jpg` and `resized/image_1700000000.jpg`
are used consistently. -/
theorem c7_witness :
    api_file_name envW evtNoName = "image_" ++ toString envW.now ++ ".jpg" ∧
    handle_api_event envW cfg0 evtNoName =
      ([Effect.s3Put (cfg0.uploadPref ++ ("image_" ++ toString envW.now ++ ".jpg"))
          [1, 2, 3] "image/jpeg",
        Effect.s3Put (cfg0.resizedPref ++ ("image_" ++ toString envW.now ++ ".jpg"))
          (resizedBytes envW imgAQID) "image/jpeg",
        Effect.ddbPut (apiItem envW cfg0 ("image_" ++ toString envW.now ++ ".jpg") imgAQID)],
        { statusCode := 200,
          body := apiSuccessBody cfg0
            (cfg0.resizedPref ++ ("image_" ++ toString envW.now ++ ".jpg")) }) :=
  c7_synthesized_name envW cfg0 evtNoName [1, 2, 3] imgAQID rfl rfl rfl (by decide)

/-! ### C8: key naming -/

/-- `api_catch` never alters the write trace, only the response. -/
theorem api_catch_fst (p : List Effect × Except String Response) :
    (api_catch p).1 = p.1 := by
  rcases p with ⟨effs, res⟩
  cases res <;> rfl

/-- Inversion of a successful `process_image` run: the bytes decoded to some
image, and the trace, key and size have the canonical shape. -/
theorem process_image_inv (env : Env) (cfg : Config) (fname : String)
    (bs : List Nat) (ct : String) (effs : List Effect) (rk : String) (sz : Nat)
    (h : process_image env cfg fname bs ct = .ok (effs, rk, sz)) :
    ∃ img, env.imageOpen bs = .ok img ∧
      rk = cfg.resizedPref ++ fname ∧
      effs = [Effect.s3Put (cfg.resizedPref ++ fname) (resizedBytes env img) ct] ∧
      sz = (resizedBytes env img).length := by
  unfold process_image at h
  cases ho : env.imageOpen bs with
  | error e =>
    rw [ho] at h
    simp at h
  | ok img =>
    rw [ho] at h
    dsimp only at h
    by_cases hz : img.width = 0
    · simp [hz] at h
    · simp only [hz, if_false] at h
      injection h with hpair
      rw [Prod.mk.injEq, Prod.mk.injEq] at hpair
      obtain ⟨he, hk, hs⟩ := hpair
      subst he
      subst hk
      subst hs
      exact ⟨img, rfl, rfl, rfl, rfl⟩

/-- Claim C8, amended: the resized object key always equals the resized
namespace followed by the file name (equivalently `image_id`); on the API
path the original key equals the upload namespace followed by that same
file name, but on the storage-event path the original key is the full event
key, whose file name is only its last path component — so the prefix
replacement claimed holds there exactly when the key is the upload
namespace directly followed by its last component (no nested folders). -/
theorem c8_amended (env : Env) (cfg : Config) :
    (∀ evt item, Effect.ddbPut item ∈ (handle_api_event env cfg evt).1 →
      item.original_key = cfg.uploadPref ++ item.image_id ∧
      item.resized_key = cfg.resizedPref ++ item.image_id) ∧
    (∀ r item, Effect.ddbPut item ∈ (processRecord env cfg r).1 →
      item.resized_key = cfg.resizedPref ++ item.image_id ∧
      ∃ sec key, r.s3 = some sec ∧ sec.objectKey = some key ∧
        item.original_key = key ∧ item.image_id = lastComponent key ∧
        (key = cfg.uploadPref ++ lastComponent key →
          item.original_key = cfg.uploadPref ++ item.image_id)) := by
  constructor
  · intro evt item hmem
    unfold handle_api_event at hmem
    cases hdec : api_decode_bytes evt with
    | error e =>
      rw [hdec] at hmem
      simp at hmem
    | ok bs =>
      rw [hdec] at hmem
      rw [api_catch_fst] at hmem
      unfold api_with_bytes at hmem
      dsimp only at hmem
      cases hpi : process_image env cfg (api_file_name env evt) bs "image/jpeg" with
      | error e =>
        simp only [hpi] at hmem
        simp at hmem
      | ok t =>
        rcases t with ⟨effs, rk, sz⟩
        obtain ⟨img, ho, hrk, heffs, hsz⟩ :=
          process_image_inv env cfg (api_file_name env evt) bs "image/jpeg"
            effs rk sz hpi
        simp only [hpi] at hmem
        subst heffs
        subst hrk
        subst hsz
        simp [save_metadata] at hmem
        subst hmem
        exact ⟨rfl, rfl⟩
  · intro r item hmem
    unfold processRecord at hmem
    cases hr : r.s3 with
    | none =>
      rw [hr] at hmem
      simp at hmem
    | some sec =>
      rw [hr] at hmem
      dsimp only at hmem
      cases hk : sec.objectKey with
      | none =>
        rw [hk] at hmem
        simp at hmem
      | some key =>
        rw [hk] at hmem
        dsimp only at hmem
        cases hsw : startsWithKey key cfg.uploadPref with
        | false =>
          simp only [hsw] at hmem
          simp at hmem
        | true =>
          simp only [hsw] at hmem
          cases hgo : env.getObject key with
          | error e =>
            simp only [hgo] at hmem
            simp at hmem
          | ok p =>
            rcases p with ⟨bytes, ct⟩
            simp only [hgo] at hmem
            cases hpi : process_image env cfg (lastComponent key) bytes ct with
            | error e =>
              simp only [hpi] at hmem
              simp at hmem
            | ok t =>
              rcases t with ⟨effs, rk, sz⟩
              obtain ⟨img, ho, hrk, heffs, hsz⟩ :=
                process_image_inv env cfg (lastComponent key) bytes ct
                  effs rk sz hpi
              simp only [hpi] at hmem
              subst heffs
              subst hrk
              subst hsz
              simp [save_metadata] at hmem
              subst hmem
              exact ⟨rfl, sec, key, rfl, hk, rfl, rfl, fun hkey => hkey⟩

/-- A storage-event record for a key nested one folder below the upload
namespace. -/
def recNestA : EventRecord := { s3 := some { objectKey := some "uploads/a/x.png" } }

/-- A storage-event record for `uploads/cat.png`. -/
def recCat : EventRecord := { s3 := some { objectKey := some "uploads/cat.png" } }

/-- The metadata row the working environment produces for `uploads/cat.png`. -/
def itemCat : Item :=
  { image_id := "cat.png"
    original_key := "uploads/cat.png"
    resized_key := "resized/cat.png"
    size_bytes := 4
    timestamp := "2023-11-14T22:13:20" }

/-- The metadata row the working environment produces for the nested key
`uploads/a/x.png`. -/
def itemNestA : Item :=
  { image_id := "x.png"
    original_key := "uploads/a/x.png"
    resized_key := "resized/x.png"
    size_bytes := 4
    timestamp := "2023-11-14T22:13:20" }

/-- Counterexample to C8 as stated: for the event key `uploads/a/x.png` the
metadata row records original key `uploads/a/x.png`, which is not the
upload namespace followed by the file name `x.png`. -/
theorem c8_counterexample :
    processRecord envW cfg0 recNestA =
      ([Effect.s3Put "resized/x.png" [32, 3, 88, 2] "image/png",
        Effect.ddbPut itemNestA], .ok ()) ∧
    itemNestA.original_key ≠ cfg0.uploadPref ++ itemNestA.image_id :=
  ⟨rfl, by decide⟩

/-- Witness for C8 (amended): for the flat key `uploads/cat.png` both keys
are the two namespaces followed by the same file name. -/
theorem c8_witness :
    itemCat.resized_key = cfg0.resizedPref ++ itemCat.image_id ∧
    ∃ sec key, recCat.s3 = some sec ∧ sec.objectKey = some key ∧
      itemCat.original_key = key ∧ itemCat.image_id = lastComponent key ∧
      (key = cfg0.uploadPref ++ lastComponent key →
        itemCat.original_key = cfg0.uploadPref ++ itemCat.image_id) :=
  (c8_amended envW cfg0).2 recCat itemCat
    (by
      have h : (processRecord envW cfg0 recCat).1 =
          [Effect.s3Put "resized/cat.png" [32, 3, 88, 2] "image/png",
            Effect.ddbPut itemCat] := rfl
      rw [h]
      exact List.mem_cons_of_mem _ (List.mem_cons_self _ _))

/-! ### C9: one metadata upsert per resize, last write wins -/

/-- Claim C9: each successful API-path invocation emits exactly one metadata
write — the unconditional upsert of the row whose `size_bytes` is by
construction the byte length of the resized payload stored under the
resized key — and replaying two invocations with the same file name against
any table state leaves the second invocation's row as the stored record. -/
theorem c9_metadata_upsert (env1 env2 : Env) (cfg : Config)
    (evt1 evt2 : LambdaEvent) (bs1 bs2 : List Nat) (img1 img2 : Img)
    (fname : String) (table : List Item)
    (hf1 : api_file_name env1 evt1 = fname)
    (hf2 : api_file_name env2 evt2 = fname)
    (hd1 : api_decode_bytes evt1 = .ok bs1)
    (hd2 : api_decode_bytes evt2 = .ok bs2)
    (hi1 : env1.imageOpen bs1 = .ok img1) (hw1 : 0 < img1.width)
    (hi2 : env2.imageOpen bs2 = .ok img2) (hw2 : 0 < img2.width) :
    (handle_api_event env1 cfg evt1).1 =
      [Effect.s3Put (cfg.uploadPref ++ fname) bs1 "image/jpeg",
        Effect.s3Put (cfg.resizedPref ++ fname) (resizedBytes env1 img1)
          "image/jpeg",
        Effect.ddbPut (apiItem env1 cfg fname img1)] ∧
    (apiItem env1 cfg fname img1).size_bytes = (resizedBytes env1 img1).length ∧
    (handle_api_event env2 cfg evt2).1 =
      [Effect.s3Put (cfg.uploadPref ++ fname) bs2 "image/jpeg",
        Effect.s3Put (cfg.resizedPref ++ fname) (resizedBytes env2 img2)
          "image/jpeg",
        Effect.ddbPut (apiItem env2 cfg fname img2)] ∧
    (apiItem env2 cfg fname img2).size_bytes = (resizedBytes env2 img2).length ∧
    lookupItem (applyEffects table
        ((handle_api_event env1 cfg evt1).1 ++ (handle_api_event env2 cfg evt2).1))
      fname = some (apiItem env2 cfg fname img2) := by
  have h1 := api_success_run env1 cfg evt1 bs1 img1 hd1 hi1 hw1
  have h2 := api_success_run env2 cfg evt2 bs2 img2 hd2 hi2 hw2
  rw [hf1] at h1
  rw [hf2] at h2
  have he1 : (handle_api_event env1 cfg evt1).1 =
      [Effect.s3Put (cfg.uploadPref ++ fname) bs1 "image/jpeg",
        Effect.s3Put (cfg.resizedPref ++ fname) (resizedBytes env1 img1)
          "image/jpeg",
        Effect.ddbPut (apiItem env1 cfg fname img1)] := by rw [h1]
  have he2 : (handle_api_event env2 cfg evt2).1 =
      [Effect.s3Put (cfg.uploadPref ++ fname) bs2 "image/jpeg",
        Effect.s3Put (cfg.resizedPref ++ fname) (resizedBytes env2 img2)
          "image/jpeg",
        Effect.ddbPut (apiItem env2 cfg fname img2)] := by rw [h2]
  refine ⟨he1, rfl, he2, rfl, ?_⟩
  rw [he1, he2]
  have happ : applyEffects table
      ([Effect.s3Put (cfg.uploadPref ++ fname) bs1 "image/jpeg",
        Effect.s3Put (cfg.resizedPref ++ fname) (resizedBytes env1 img1)
          "image/jpeg",
        Effect.ddbPut (apiItem env1 cfg fname img1)] ++
       [Effect.s3Put (cfg.uploadPref ++ fname) bs2 "image/jpeg",
        Effect.s3Put (cfg.resizedPref ++ fname) (resizedBytes env2 img2)
          "image/jpeg",
        Effect.ddbPut (apiItem env2 cfg fname img2)]) =
      putItem (putItem table (apiItem env1 cfg fname img1))
        (apiItem env2 cfg fname img2) := by
    simp [applyEffects, applyEffect]
  rw [happ]
  exact lookupItem_putItem (putItem table (apiItem env1 cfg fname img1))
    (apiItem env2 cfg fname img2)

/-- The working environment at a later clock reading. -/
def envW2 : Env := { envW with now := 1800000000, nowIso := "2027-01-15T08:00:00" }

/-- Witness for C9: the same `filename=cat.png` uploaded at two times leaves
the second row in the table. -/
theorem c9_witness :
    (handle_api_event envW cfg0 evtApi).1 =
      [Effect.s3Put (cfg0.uploadPref ++ "cat.png") [1, 2, 3] "image/jpeg",
        Effect.s3Put (cfg0.resizedPref ++ "cat.png") (resizedBytes envW imgAQID)
          "image/jpeg",
        Effect.ddbPut (apiItem envW cfg0 "cat.png" imgAQID)] ∧
    (apiItem envW cfg0 "cat.png" imgAQID).size_bytes =
      (resizedBytes envW imgAQID).length ∧
    (handle_api_event envW2 cfg0 evtApi).1 =
      [Effect.s3Put (cfg0.uploadPref ++ "cat.png") [1, 2, 3] "image/jpeg",
        Effect.s3Put (cfg0.resizedPref ++ "cat.png") (resizedBytes envW2 imgAQID)
          "image/jpeg",
        Effect.ddbPut (apiItem envW2 cfg0 "cat.png" imgAQID)] ∧
    (apiItem envW2 cfg0 "cat.png" imgAQID).size_bytes =
      (resizedBytes envW2 imgAQID).length ∧
    lookupItem (applyEffects []
        ((handle_api_event envW cfg0 evtApi).1 ++
          (handle_api_event envW2 cfg0 evtApi).1))
      "cat.png" = some (apiItem envW2 cfg0 "cat.png" imgAQID) :=
  c9_metadata_upsert envW envW2 cfg0 evtApi evtApi [1, 2, 3] [1, 2, 3]
    imgAQID imgAQID "cat.png" [] rfl rfl rfl rfl rfl (by decide) rfl (by decide)

/-! ### C10: the file name is only the last path component -/

/-- The metadata row written by the storage-event path for an event key and
the image its object decoded to: the `image_id` and the resized key use only
the last path component of the event key. -/
def s3Item (env : Env) (cfg : Config) (key : String) (img : Img) : Item :=
  { image_id := lastComponent key
    original_key := key
    resized_key := cfg.resizedPref ++ lastComponent key
    size_bytes := (resizedBytes env img).length
    timestamp := env.nowIso }

/-- A successful storage-event record run: resized put plus one metadata
upsert, both named by the key's last path component. -/
theorem processRecord_ok (env : Env) (cfg : Config) (r : EventRecord)
    (sec : S3Section) (key : String) (bytes : List Nat) (ct : String)
    (img : Img) (hr : r.s3 = some sec) (hk : sec.objectKey = some key)
    (hsw : startsWithKey key cfg.uploadPref = true)
    (hg : env.getObject key = .ok (bytes, ct))
    (hi : env.imageOpen bytes = .ok img) (hw : 0 < img.width) :
    processRecord env cfg r =
      ([Effect.s3Put (cfg.resizedPref ++ lastComponent key)
          (resizedBytes env img) ct,
        Effect.ddbPut (s3Item env cfg key img)], .ok ()) := by
  have hpi := process_image_ok env cfg (lastComponent key) bytes ct img hi hw
  simp [processRecord, hr, hk, hsw, hg, hpi, save_metadata, s3Item]

/-- Claim C10: two distinct upload keys sharing the same last path component
produce the same resized object key and the same metadata `image_id`, and
replaying both records leaves the later record's row as the stored one. -/
theorem c10_basename_collision (env : Env) (cfg : Config)
    (r1 r2 : EventRecord) (sec1 sec2 : S3Section) (k1 k2 : String)
    (b1 b2 : List Nat) (ct1 ct2 : String) (img1 img2 : Img)
    (table : List Item)
    (hr1 : r1.s3 = some sec1) (hk1 : sec1.objectKey = some k1)
    (hs1 : startsWithKey k1 cfg.uploadPref = true)
    (hg1 : env.getObject k1 = .ok (b1, ct1))
    (hi1 : env.imageOpen b1 = .ok img1) (hw1 : 0 < img1.width)
    (hr2 : r2.s3 = some sec2) (hk2 : sec2.objectKey = some k2)
    (hs2 : startsWithKey k2 cfg.uploadPref = true)
    (hg2 : env.getObject k2 = .ok (b2, ct2))
    (hi2 : env.imageOpen b2 = .ok img2) (hw2 : 0 < img2.width)
    (hne : k1 ≠ k2) (hlast : lastComponent k1 = lastComponent k2) :
    processRecord env cfg r1 =
      ([Effect.s3Put (cfg.resizedPref ++ lastComponent k1)
          (resizedBytes env img1) ct1,
        Effect.ddbPut (s3Item env cfg k1 img1)], .ok ()) ∧
    processRecord env cfg r2 =
      ([Effect.s3Put (cfg.resizedPref ++ lastComponent k1)
          (resizedBytes env img2) ct2,
        Effect.ddbPut (s3Item env cfg k2 img2)], .ok ()) ∧
    (s3Item env cfg k1 img1).image_id = (s3Item env cfg k2 img2).image_id ∧
    (s3Item env cfg k1 img1).resized_key = (s3Item env cfg k2 img2).resized_key ∧
    lookupItem (applyEffects table
        ((processRecord env cfg r1).1 ++ (processRecord env cfg r2).1))
      (lastComponent k1) = some (s3Item env cfg k2 img2) := by
  have h1 := processRecord_ok env cfg r1 sec1 k1 b1 ct1 img1 hr1 hk1 hs1 hg1 hi1 hw1
  have h2 := processRecord_ok env cfg r2 sec2 k2 b2 ct2 img2 hr2 hk2 hs2 hg2 hi2 hw2
  refine ⟨h1, ?_, ?_, ?_, ?_⟩
  · rw [hlast]
    exact h2
  · simp [s3Item, hlast]
  · simp [s3Item, hlast]
  · rw [h1, h2]
    dsimp only
    have happ : applyEffects table
        ([Effect.s3Put (cfg.resizedPref ++ lastComponent k1)
            (resizedBytes env img1) ct1,
          Effect.ddbPut (s3Item env cfg k1 img1)] ++
         [Effect.s3Put (cfg.resizedPref ++ lastComponent k2)
            (resizedBytes env img2) ct2,
          Effect.ddbPut (s3Item env cfg k2 img2)]) =
        putItem (putItem table (s3Item env cfg k1 img1))
          (s3Item env cfg k2 img2) := by
      simp [applyEffects, applyEffect]
    rw [happ, hlast]
    exact lookupItem_putItem (putItem table (s3Item env cfg k1 img1))
      (s3Item env cfg k2 img2)

/-- A storage-event record for a second nested key with the same base name. -/
def recNestB : EventRecord := { s3 := some { objectKey := some "uploads/b/x.png" } }

/-- The image decoded from the object at `uploads/a/x.png`. -/
def imgNestA : Img := { width := 1600, height := 1200, format := some "PNG", data := [8] }

/-- The image decoded from the object at `uploads/b/x.png`. -/
def imgNestB : Img := { width := 1600, height := 1200, format := some "PNG", data := [9] }

/-- Witness for C10: `uploads/a/x.png` and `uploads/b/x.png` collide on
`x.png`, and the second record's row wins. -/
theorem c10_witness :
    processRecord envW cfg0 recNestA =
      ([Effect.s3Put (cfg0.resizedPref ++ lastComponent "uploads/a/x.png")
          (resizedBytes envW imgNestA) "image/png",
        Effect.ddbPut (s3Item envW cfg0 "uploads/a/x.png" imgNestA)], .ok ()) ∧
    processRecord envW cfg0 recNestB =
      ([Effect.s3Put (cfg0.resizedPref ++ lastComponent "uploads/a/x.png")
          (resizedBytes envW imgNestB) "image/png",
        Effect.ddbPut (s3Item envW cfg0 "uploads/b/x.png" imgNestB)], .ok ()) ∧
    (s3Item envW cfg0 "uploads/a/x.png" imgNestA).image_id =
      (s3Item envW cfg0 "uploads/b/x.png" imgNestB).image_id ∧
    (s3Item envW cfg0 "uploads/a/x.png" imgNestA).resized_key =
      (s3Item envW cfg0 "uploads/b/x.png" imgNestB).resized_key ∧
    lookupItem (applyEffects []
        ((processRecord envW cfg0 recNestA).1 ++
          (processRecord envW cfg0 recNestB).1))
      (lastComponent "uploads/a/x.png") =
      some (s3Item envW cfg0 "uploads/b/x.png" imgNestB) :=
  c10_basename_collision envW cfg0 recNestA recNestB
    { objectKey := some "uploads/a/x.png" } { objectKey := some "uploads/b/x.png" }
    "uploads/a/x.png" "uploads/b/x.png" [8] [9] "image/png" "image/png"
    imgNestA imgNestB [] rfl rfl rfl rfl rfl (by decide)
    rfl rfl rfl rfl rfl (by decide) (by decide) rfl
